import Mathlib

/-
Verification development for the cs2-casual-enjoyer join manager.

The embedding follows the two source modules the claims are about:
  - src/js/steam-api.js : presence-blob decoding and the per-id fetch helpers;
  - src/js/join-manager.js : the per-friend join loop, its registry and the
    cancel / reset operations.

JavaScript strings are modelled as `List Char` (called `Str` below) so that
all definitions are structurally recursive and executable.  JavaScript
`string | null | undefined` values are modelled as `Option Str`, with both
`null` and `undefined` mapped to `none`; JS truthiness on such values
(`null`, `undefined` and `""` are falsy) is the function `jsTruthyS`.
-/

namespace Enjoyer

/-- JavaScript string, modelled as a list of characters. -/
abbrev Str := List Char

/-- JS truthiness of a `string | null | undefined` value:
`null` / `undefined` and the empty string are falsy. -/
def jsTruthyS : Option Str → Bool
  | none => false
  | some s => !(s.isEmpty)

/-- JS `a || b` on nullable strings: `a` when truthy, otherwise `b` as is. -/
def jsOr (a b : Option Str) : Option Str :=
  if jsTruthyS a then a else b

/-- Whitespace test for the regex class `\s` used in the presence decoder
(the characters relevant to key-value blobs). -/
def isWs (c : Char) : Bool :=
  c = ' ' || c = '\t' || c = '\n' || c = '\r' || c = '\x0b' || c = '\x0c' || c = ' '

/-- Drop an expected literal from the front of a string: `some rest` when
`s = pre ++ rest`, `none` otherwise. -/
def stripL : Str → Str → Option Str
  | [], s => some s
  | _ :: _, [] => none
  | p :: ps, c :: cs => if p = c then stripL ps cs else none

/-- Does `s` start with `pre`? -/
def startsWithL : Str → Str → Bool
  | [], _ => true
  | _ :: _, [] => false
  | p :: ps, c :: cs => p = c && startsWithL ps cs

/-- The literal `"key"` (the key wrapped in double quotes) that the decoder's
regex looks for.  The JS code escapes regex metacharacters in the key, so the
key is always matched literally. -/
def quoted (key : Str) : Str := '"' :: key ++ ['"']

/-- The suffix of the regex `"key"\s+"([^"]+)"`: a quoted value of one or
more non-quote characters.  Returns the captured value (the maximal run of
non-quote characters, which must be non-empty and followed by the closing
quote — the greedy semantics of `([^"]+)"`). -/
def readQuotedValue (r2 : Str) : Option Str :=
  match r2 with
  | [] => none
  | q :: r3 =>
    if q = '"' then
      let v := r3.takeWhile (fun c => !(c = '"'))
      let r4 := r3.dropWhile (fun c => !(c = '"'))
      if v.isEmpty then none
      else
        match r4 with
        | [] => none
        | q2 :: _ => if q2 = '"' then some v else none
    else none

/-- One attempt, at the current position, to match the decoder's regex
`"key"\s+"([^"]+)"` (steam-api.js line 23): the quoted key, one or more
whitespace characters (`\s+`, greedy), then a quoted non-empty value. -/
def matchKeyAt (key s : Str) : Option Str :=
  match stripL (quoted key) s with
  | none => none
  | some rest =>
    if (rest.takeWhile isWs).isEmpty then none
    else readQuotedValue (rest.dropWhile isWs)

/-- The decoder's per-key lookup (the inner `extract` of `parseRichPresence`,
steam-api.js lines 22-26): leftmost match of `"key"\s+"([^"]+)"` in the blob,
returning the captured value, or `null` when there is no match. -/
def extract (key : Str) : Str → Option Str
  | [] => none
  | c :: rest =>
    match matchKeyAt key (c :: rest) with
    | some v => some v
    | none => extract key rest

/-- Does the quoted key occur (as a contiguous substring) anywhere in the
blob?  Any regex match contains this literal, so this is the right notion of
"the key is present in the blob". -/
def hasQuotedKey (key : Str) : Str → Bool
  | [] => false
  | c :: rest => startsWithL (quoted key) (c :: rest) || hasQuotedKey key rest

/-- Decoded rich-presence fields (steam-api.js lines 27-35).  A missing key
decodes to `none` (JS `null`). -/
structure PresenceInfo where
  status : Option Str
  game_state : Option Str
  game_mode : Option Str
  game_map : Option Str
  game_score : Option Str
  connect : Option Str
  game_server_steam_id : Option Str
deriving Repr, DecidableEq

/-- The presence decoder `parseRichPresence` (steam-api.js lines 21-36). -/
def parseRichPresence (kv : Str) : PresenceInfo :=
  { status := extract "status".toList kv
    game_state := extract "game:state".toList kv
    game_mode := extract "game:mode".toList kv
    game_map := extract "game:map".toList kv
    game_score := extract "game:score".toList kv
    connect := extract "connect".toList kv
    game_server_steam_id := extract "game_server_steam_id".toList kv }

/-- The membership test `["", null, "lobby"].includes(rp.game_state)` from
steam-api.js line 168 (`Array.prototype.includes` on a `string | null`). -/
def gameStateBlocked (gs : Option Str) : Bool :=
  gs == some [] || gs == none || gs == some "lobby".toList

/-- `can_join` as computed in `getFriendsStatuses` (steam-api.js line 168):
the game mode is exactly `"casual"` and the game state is not in
`["", null, "lobby"]`. -/
def can_join (rp : PresenceInfo) : Bool :=
  rp.game_mode == some "casual".toList && !(gameStateBlocked rp.game_state)

/-- `join_available` as computed in `getFriendsStatuses` (steam-api.js
line 169): `can_join` and the connect value (defaulted to `""` by
`rp.connect || ""` on line 166) starts with `"+gcconnect"`. -/
def join_available (rp : PresenceInfo) : Bool :=
  can_join rp && startsWithL "+gcconnect".toList ((rp.connect).getD [])

/-- The `private_data` object of an account in a `GetPlayerLinkDetails`
response.  Absent JSON keys are `none`. -/
structure PrivateData where
  game_id : Option Str
  rich_presence_kv : Option Str
  game_server_steam_id : Option Str
deriving Repr, DecidableEq

/-- The empty object `{}` used for `acc.private_data || {}`. -/
def PrivateData.empty : PrivateData :=
  { game_id := none, rich_presence_kv := none, game_server_steam_id := none }

/-- The `public_data` object of an account. -/
structure PublicData where
  steamid : Option Str
  persona_name : Option Str
deriving Repr, DecidableEq

/-- The empty object for `acc.public_data || {}`. -/
def PublicData.empty : PublicData := { steamid := none, persona_name := none }

/-- One account of a `GetPlayerLinkDetails` response. -/
structure Account where
  private_data : Option PrivateData
  public_data : Option PublicData
deriving Repr, DecidableEq

/-- Outcome of an HTTP fetch as the steam-api helpers see it: the fetch (or
JSON decoding) threw, the response arrived with `resp.ok` false, or it
arrived OK carrying the listed accounts. -/
inductive FetchOutcome (α : Type) where
  | err
  | notOk
  | ok (data : α)
deriving Repr, DecidableEq

/-- One player summary, as used for the avatar lookup in
`getFriendsStatuses` (steam-api.js line 172). -/
structure Summary where
  avatarfull : Option Str
  avatar : Option Str
deriving Repr, DecidableEq

/-- Map from steamid to player summary (`avatarMap`). -/
abbrev AvatarMap := List (Str × Summary)

/-- Association-list lookup for `avatarMap[steamid]` (undefined when the key
is absent). -/
def lookupAvatar : AvatarMap → Str → Option Summary
  | [], _ => none
  | (k, v) :: t, s => if k = s then some v else lookupAvatar t s

/-- The friend-status object built by `getFriendsStatuses` (steam-api.js
lines 173-184).  These are exactly the keys the returned object carries;
in particular there is no `in_casual_mode` key. -/
structure FriendStatus where
  steamid : Str
  personaname : Str
  status : Str
  can_join : Bool
  join_available : Bool
  game_map : Str
  game_score : Str
  game_server_steam_id : Option Str
  connect : Str
  avatar : Str
deriving Repr, DecidableEq

/-- The per-account mapping of `getFriendsStatuses` (steam-api.js
lines 157-184). -/
def mapAccount (avatarMap : AvatarMap) (acc : Account) : FriendStatus :=
  let priv := acc.private_data.getD PrivateData.empty
  let pub := acc.public_data.getD PublicData.empty
  let rich_presence_kv := (priv.rich_presence_kv).getD []
  let rp := parseRichPresence rich_presence_kv
  let steamid := (pub.steamid).getD []
  { steamid := steamid
    personaname := (pub.persona_name).getD []
    status := (rp.status).getD []
    can_join := can_join rp
    join_available := join_available rp
    game_map := (rp.game_map).getD []
    game_score := (rp.game_score).getD []
    game_server_steam_id := rp.game_server_steam_id
    connect := (rp.connect).getD []
    avatar :=
      ((jsOr ((lookupAvatar avatarMap steamid).bind Summary.avatarfull)
            ((lookupAvatar avatarMap steamid).bind Summary.avatar)).getD []) }

/-- `getFriendsStatuses` (steam-api.js lines 131-190) viewed from its
response: a failed fetch or a non-OK response raises an error which the
function logs and RE-THROWS (line 188), an OK response is filtered to the
accounts playing app 730 and mapped to friend-status objects.  `summaries`
stands for the result of the avatar sub-fetch used when `avatarMap` is
empty (lines 149-152). -/
def getFriendsStatuses (o : FetchOutcome (List Account)) (avatarMap : AvatarMap)
    (summaries : AvatarMap) : Except Unit (List FriendStatus) :=
  match o with
  | .err => .error ()
  | .notOk => .error ()
  | .ok accounts =>
    let am := if avatarMap.isEmpty then summaries else avatarMap
    .ok ((accounts.filter
            (fun acc => (acc.private_data.getD PrivateData.empty).game_id
              == some "730".toList)).map (mapAccount am))

/-- `getFriendConnectInfo` (steam-api.js lines 198-224): every failure path
(thrown fetch, non-OK response, no accounts, wrong game id, non-joinable
presence) returns `null`; otherwise it returns the decoded `connect`
field, which may itself be `null`.  The joinability test on line 216 is
the same expression as `can_join`. -/
def getFriendConnectInfo (o : FetchOutcome (List Account)) : Option Str :=
  match o with
  | .err => none
  | .notOk => none
  | .ok accounts =>
    match accounts with
    | [] => none
    | acc :: _ =>
      let priv := acc.private_data.getD PrivateData.empty
      if priv.game_id == some "730".toList then
        let rp := parseRichPresence ((priv.rich_presence_kv).getD [])
        if can_join rp then rp.connect else none
      else none

/-- `getUserGameServerSteamId` (steam-api.js lines 232-254): failure paths
return `null`; otherwise `rp.game_server_steam_id || priv.game_server_steam_id`
(JS `||`, so a falsy decoded field falls through to the raw private-data
field, returned as is). -/
def getUserGameServerSteamId (o : FetchOutcome (List Account)) : Option Str :=
  match o with
  | .err => none
  | .notOk => none
  | .ok accounts =>
    match accounts with
    | [] => none
    | acc :: _ =>
      let priv := acc.private_data.getD PrivateData.empty
      let rp := parseRichPresence ((priv.rich_presence_kv).getD [])
      jsOr rp.game_server_steam_id priv.game_server_steam_id

/-
Join manager (src/js/join-manager.js).

The global object `joinStates` is an insertion-ordered map from friend id to
entry, modelled as an association list.  `joinLoop` is an async function; it
is modelled as a state machine whose control points are its `await`
expressions (every fetch and every sleep).  A `resume…` function below runs
the loop synchronously from one suspension point to the next, mirroring how
the JS event loop executes an async function between awaits; interleaving of
several loops is function composition on the shared registry.  Each resume
step returns the updated registry, the task's next state, and the list of
outward calls (fetches, launch) it issued.
-/

/-- Status strings used by the join manager. -/
def stWaiting : Str := "waiting".toList

/-- Status string for the connecting state. -/
def stConnecting : Str := "connecting".toList

/-- Status string for the joined state. -/
def stJoined : Str := "joined".toList

/-- Status string for the missing state. -/
def stMissing : Str := "missing".toList

/-- Status string for the cancelled state. -/
def stCancelled : Str := "cancelled".toList

/-- One entry of the `joinStates` object.  `status` and `cancelled` are
always present on real entries; `interval` records whether a UI-refresh
timer handle is stored (join-manager.js line 29); `personaname` / `avatar`
are added by the missing branch (lines 69-70) and absent before that. -/
structure Entry where
  status : Str
  cancelled : Bool
  interval : Bool
  personaname : Option Str
  avatar : Option Str
deriving Repr, DecidableEq

/-- The object produced by spreading `undefined` in `cancelJoin`
(join-manager.js lines 120-124) when no entry exists for the id. -/
def Entry.empty : Entry :=
  { status := [], cancelled := false, interval := false
    personaname := none, avatar := none }

/-- The `joinStates` registry: an insertion-ordered map from friend id to
entry. -/
abbrev Reg := List (Str × Entry)

/-- Property read `joinStates[f]` (undefined when absent). -/
def lookupReg : Reg → Str → Option Entry
  | [], _ => none
  | (g, e) :: t, f => if g = f then some e else lookupReg t f

/-- Property write `joinStates[f] = e`: replaces in place, or appends a new
key in insertion order. -/
def setReg : Reg → Str → Entry → Reg
  | [], f, e => [(f, e)]
  | (g, x) :: t, f, e => if g = f then (f, e) :: t else (g, x) :: setReg t f e

/-- The keys of the registry, in insertion order (`Object.keys`). -/
def keysReg (reg : Reg) : List Str := reg.map Prod.fst

/-- The statement `joinStates[f].status = st` (join-manager.js lines 68, 81,
86, 95, 108): a TypeError (modelled as `none`) when no entry exists for
`f`, otherwise the updated registry. -/
def setStatus (reg : Reg) (f : Str) (st : Str) : Option Reg :=
  match lookupReg reg f with
  | none => none
  | some e => some (setReg reg f { e with status := st })

/-- `cancelJoin` (join-manager.js lines 116-132): clears the UI timer if one
is stored, then overwrites the entry with a copy whose `status` is
`"cancelled"` and whose `cancelled` flag is set.  Spreading a missing entry
(`{...undefined, ...}`) re-creates the entry from scratch. -/
def cancelJoin (reg : Reg) (f : Str) : Reg :=
  let base := (lookupReg reg f).getD Entry.empty
  setReg reg f { base with status := stCancelled, cancelled := true }

/-- `resetAll` (join-manager.js lines 145-152): clears every stored UI timer
and deletes every key of `joinStates`, leaving the registry empty.  It sets
no `cancelled` flag and does not touch the running loops. -/
def resetAll (_reg : Reg) : Reg := []

/-- The local variables of one `joinLoop` invocation (join-manager.js
lines 47-51): the user's own steam id, the clamped poll interval, and the
`missingSince` / last-known-display locals. -/
structure Locals where
  selfId : Str
  interval : Nat
  missingSince : Option Nat
  lastKnownPersona : Option Str
  lastKnownAvatar : Option Str
deriving Repr, DecidableEq

/-- Suspension points of `joinLoop`, one per `await`:
fetch of connect info (line 55), fetch of statuses (line 58), the shared
poll sleep of the no-connect branch (line 83), the post-launch sleep
(line 90), the two server-id fetches (lines 92-93), the joined grace sleep
(line 101) and the end-of-iteration sleep (line 105). -/
inductive Kont where
  | fetchConnect
  | fetchStatuses
  | sleepPoll
  | sleepAfterLaunch
  | fetchUserServer
  | fetchFriendServer (userSrv : Option Str)
  | sleepJoined
  | sleepRetry
deriving Repr, DecidableEq

/-- State of one loop task: suspended at an await, returned normally, or
terminated by an uncaught exception (a TypeError on a deleted entry, or an
error re-thrown by `getFriendsStatuses`). -/
inductive TaskState where
  | susp (k : Kont) (l : Locals)
  | done (l : Locals)
  | crashed (l : Locals)
deriving Repr, DecidableEq

/-- Outward calls a resume step can issue. -/
inductive Event where
  | fetchConnectInfo (fid : Str)
  | fetchStatusesCall (fid : Str)
  | launch (fid : Str) (conn : Str)
  | fetchServerId (sid : Str)
deriving Repr, DecidableEq

/-- Duration in milliseconds of the sleep a suspension stands for (`none`
for fetch awaits): the poll sleeps use the clamped interval, the joined
grace sleep is fixed at 1500 ms (join-manager.js line 101). -/
def sleepDur (k : Kont) (l : Locals) : Option Nat :=
  match k with
  | .sleepPoll => some l.interval
  | .sleepAfterLaunch => some l.interval
  | .sleepJoined => some 1500
  | .sleepRetry => some l.interval
  | _ => none

/-- The code after the loop (join-manager.js lines 107-109): if the entry's
status is not `"joined"` it is set to `"cancelled"`.  When the entry has
been deleted, the read `joinStates[f]?.status` yields `undefined` (which is
not `"joined"`), and the subsequent write throws a TypeError. -/
def epilogue (reg : Reg) (f : Str) (l : Locals) : Reg × TaskState :=
  match lookupReg reg f with
  | some e =>
    if e.status = stJoined then (reg, .done l)
    else (setReg reg f { e with status := stCancelled }, .done l)
  | none => (reg, .crashed l)

/-- The top of the `while (true)` body (join-manager.js lines 52-55): the
cancellation check `joinStates[f]?.cancelled` (a deleted entry reads as
`undefined`, which is falsy, so the loop does NOT stop), then — when not
cancelled — the awaited call to `getFriendConnectInfo`. -/
def runTop (reg : Reg) (f : Str) (l : Locals) : Reg × TaskState × List Event :=
  match lookupReg reg f with
  | some e =>
    if e.cancelled then
      let (reg', ts) := epilogue reg f l
      (reg', ts, [])
    else (reg, .susp .fetchConnect l, [.fetchConnectInfo f])
  | none => (reg, .susp .fetchConnect l, [.fetchConnectInfo f])

/-- Resume after the connect-info fetch (join-manager.js lines 55-90) with
its result `r`.  A falsy result (`null` or `""`) goes to the statuses fetch
of the disambiguation branch; a truthy connect string drives the connecting
branch: set status `"connecting"` (TypeError when the entry is gone), issue
the launch, and sleep. -/
def resumeConnect (reg : Reg) (f : Str) (l : Locals) (r : Option Str) :
    Reg × TaskState × List Event :=
  if jsTruthyS r then
    match setStatus reg f stConnecting with
    | none => (reg, .crashed l, [])
    | some reg' => (reg', .susp .sleepAfterLaunch l, [.launch f (r.getD [])])
  else (reg, .susp .fetchStatuses l, [.fetchStatusesCall f])

/-- The read `friendStatus.in_casual_mode` (join-manager.js line 60).  The
objects returned by `getFriendsStatuses` carry exactly the keys listed in
`FriendStatus` (steam-api.js lines 173-184); `in_casual_mode` is not among
them, so the property access always yields `undefined`, which is falsy. -/
def in_casual_mode (_fs : FriendStatus) : Bool := false

/-- JS truthiness of a nullable number (`null`, `undefined` and `0` are
falsy), used for `if (!missingSince)` (join-manager.js line 62). -/
def jsTruthyN : Option Nat → Bool
  | none => false
  | some n => n != 0

/-- The body of the missing branch (join-manager.js lines 61-75) given the
optional friend status, the current time `now`, the registry and the
locals: record `missingSince` and the last-known display data on first
entry (a falsy `missingSince`, i.e. `null` or `0`), write the missing
status into the entry (TypeError when the entry is gone), and cancel after
more than 60000 ms. -/
def missingBranch (reg : Reg) (f : Str) (l : Locals) (now : Nat)
    (fsOpt : Option FriendStatus) : Reg × TaskState × List Event :=
  let firstEntry := !(jsTruthyN l.missingSince)
  let ms' := if firstEntry then some now else l.missingSince
  let lp' :=
    if firstEntry then
      some ((jsOr (jsOr (fsOpt.map FriendStatus.personaname)
          ((lookupReg reg f).bind Entry.personaname))
          (some "Unknown".toList)).getD [])
    else l.lastKnownPersona
  let la' :=
    if firstEntry then
      some ((jsOr (jsOr (fsOpt.map FriendStatus.avatar)
          ((lookupReg reg f).bind Entry.avatar)) (some [])).getD [])
    else l.lastKnownAvatar
  let l' := { l with missingSince := ms',
                     lastKnownPersona := lp',
                     lastKnownAvatar := la' }
  match lookupReg reg f with
  | none => (reg, .crashed l', [])
  | some e =>
    let reg' := setReg reg f { e with status := stMissing,
                                      personaname := lp', avatar := la' }
    if (now : Int) - ((ms'.getD 0 : Nat) : Int) > 60000 then
      let regB := cancelJoin reg' f
      let (regC, ts) := epilogue regB f l'
      (regC, ts, [])
    else (reg', .susp .sleepPoll l', [])

/-- Resume after the statuses fetch (join-manager.js lines 58-84).  An
error thrown by `getFriendsStatuses` is not caught anywhere in `joinLoop`,
so it terminates the loop (the async function rejects) without touching
the registry.  Otherwise `friendStatus` is the first element of the result
(or `null`), and the branch on `!friendStatus || !friendStatus.in_casual_mode`
decides between the missing branch and the back-in-casual branch
(lines 76-82). -/
def resumeStatuses (reg : Reg) (f : Str) (l : Locals) (now : Nat)
    (res : Except Unit (List FriendStatus)) : Reg × TaskState × List Event :=
  match res with
  | .error _ => (reg, .crashed l, [])
  | .ok statuses =>
    let friendStatus := statuses.head?
    match friendStatus with
    | none => missingBranch reg f l now none
    | some fs =>
      if in_casual_mode fs then
        let l' := { l with missingSince := none,
                           lastKnownPersona := some fs.personaname,
                           lastKnownAvatar := some fs.avatar }
        match setStatus reg f stWaiting with
        | none => (reg, .crashed l', [])
        | some reg' => (reg', .susp .sleepPoll l', [])
      else missingBranch reg f l now (some fs)

/-- Resume after the post-launch sleep (join-manager.js lines 90-92): with
no cancellation check, the loop issues the fetch of the user's own server
id. -/
def resumeSleepLaunch (reg : Reg) (f : Str) (l : Locals) :
    Reg × TaskState × List Event :=
  (reg, .susp .fetchUserServer l, [.fetchServerId l.selfId])

/-- Resume after the user-server fetch (join-manager.js lines 92-93) with
its result: the loop immediately issues the fetch of the friend's server
id. -/
def resumeUserServer (reg : Reg) (f : Str) (l : Locals) (r : Option Str) :
    Reg × TaskState × List Event :=
  (reg, .susp (.fetchFriendServer r) l, [.fetchServerId f])

/-- Resume after the friend-server fetch (join-manager.js lines 93-105).
`user_server && friend_server && user_server === friend_server` requires
both values TRUTHY (non-null and non-empty) and equal; then the status
becomes `"joined"`, every other key of the registry is cancelled
synchronously, and the loop sleeps for the 1500 ms grace period.
Otherwise the loop sleeps and goes back to the top. -/
def resumeFriendServer (reg : Reg) (f : Str) (l : Locals)
    (userSrv r : Option Str) : Reg × TaskState × List Event :=
  if jsTruthyS userSrv && jsTruthyS r && userSrv == r then
    match setStatus reg f stJoined with
    | none => (reg, .crashed l, [])
    | some reg' =>
      let others := (keysReg reg').filter (fun g => !(g = f))
      let regB := others.foldl (fun a g => cancelJoin a g) reg'
      (regB, .susp .sleepJoined l, [])
  else (reg, .susp .sleepRetry l, [])

/-- Resume after the joined grace sleep (join-manager.js lines 101-103):
cancel the own entry and break out of the loop into the epilogue. -/
def resumeSleepJoined (reg : Reg) (f : Str) (l : Locals) :
    Reg × TaskState × List Event :=
  let reg' := cancelJoin reg f
  let (regB, ts) := epilogue reg' f l
  (regB, ts, [])

/-- Resume after the shared poll sleep of the no-connect branch
(join-manager.js lines 83-84, `continue`): back to the top of the loop. -/
def resumeSleepPoll (reg : Reg) (f : Str) (l : Locals) :
    Reg × TaskState × List Event :=
  runTop reg f l

/-- Resume after the end-of-iteration sleep (join-manager.js line 105):
back to the top of the loop. -/
def resumeSleepRetry (reg : Reg) (f : Str) (l : Locals) :
    Reg × TaskState × List Event :=
  runTop reg f l

/-- The fresh entry written by `startJoin` (join-manager.js lines 21-25)
after the UI-refresh timer handle has been stored (line 29). -/
def startEntry : Entry :=
  { status := stWaiting, cancelled := false, interval := true
    personaname := none, avatar := none }

/-- `startJoin` (join-manager.js lines 16-38): overwrite the registry entry
with a fresh waiting entry whose `cancelled` flag is `false`, store the UI
timer handle, then call `joinLoop`, which runs synchronously up to its
first await (the cancellation check at line 53 and the connect-info fetch
at line 55).  The poll interval is 500 ms, clamped from below to 100 by
`joinLoop` (line 48).  Returns the registry, the new loop task and the
calls issued.  Note that nothing here cancels a previously running loop
for the same id. -/
def startJoin (reg : Reg) (f selfId : Str) : Reg × TaskState × List Event :=
  let reg1 := setReg reg f
    { status := stWaiting, cancelled := false, interval := false
      personaname := none, avatar := none }
  let reg2 := setReg reg1 f startEntry
  let l : Locals := { selfId := selfId, interval := max 100 500,
                      missingSince := none, lastKnownPersona := none,
                      lastKnownAvatar := none }
  runTop reg2 f l

/-- The locals `joinLoop` starts from when called by `startJoin`. -/
def startLocals (selfId : Str) : Locals :=
  { selfId := selfId, interval := max 100 500, missingSince := none
    lastKnownPersona := none, lastKnownAvatar := none }

/-
Concrete inputs and scenario traces used by the claim checks below.
-/

/-- Friend id used in the concrete scenarios. -/
def idA : Str := "76561198000000001".toList

/-- A second friend id. -/
def idB : Str := "76561198000000002".toList

/-- The user's own steam id. -/
def idSelf : Str := "76561198000000000".toList

/-- A connect token as decoded from presence data. -/
def connX : Str := "+gcconnect/G123".toList

/-- A game-server steam id. -/
def srv900 : Str := "90012345".toList

/-- A different game-server steam id. -/
def srvOther : Str := "90054321".toList

/-- The example presence blob of the specification. -/
def exampleBlob : Str :=
  ("\"status\" \"Playing Casual\" \"game:mode\" \"casual\" \"game:state\" \"2\" \"connect\" \"+gcconnect/G123\"").toList

/-- Registry after `startJoin(A)` was called twice in a row (the first loop is
still suspended on its first connect-info fetch when the second call runs). -/
def c1reg2 : Reg := (startJoin (startJoin [] idA idSelf).1 idA idSelf).1

/-- The FIRST loop resuming after the double start: its connect fetch
resolves with a connect string. -/
def c1r1 := resumeConnect c1reg2 idA (startLocals idSelf) (some connX)

/-- The SECOND loop resuming right afterwards with the same connect result. -/
def c1r2 := resumeConnect c1r1.1 idA (startLocals idSelf) (some connX)

/-- Registry with two friends both started (for the cross-cancel witness). -/
def c2regW : Reg := [(idA, startEntry), (idB, startEntry)]

/-- Scenario: one loop started for `idA`. -/
def c4s1 := startJoin [] idA idSelf

/-- The loop receives a connect string and launches. -/
def c4t1 := resumeConnect c4s1.1 idA (startLocals idSelf) (some connX)

/-- The post-launch sleep elapses. -/
def c4t2 := resumeSleepLaunch c4t1.1 idA (startLocals idSelf)

/-- The own-server fetch resolves. -/
def c4t3 := resumeUserServer c4t2.1 idA (startLocals idSelf) (some srv900)

/-- The friend-server fetch resolves with the same id: the loop is Joined and
enters the 1500 ms grace sleep. -/
def c4t4 := resumeFriendServer c4t3.1 idA (startLocals idSelf) (some srv900) (some srv900)

/-- Variant: the friend-server fetch resolves with a different id, so the
loop enters the end-of-iteration sleep. -/
def c4t4b := resumeFriendServer c4t3.1 idA (startLocals idSelf) (some srv900) (some srvOther)

/-- Registry where the user cancelled while the first connect-info fetch of
the loop was in flight. -/
def c5k1 : Reg := cancelJoin (startJoin [] idA idSelf).1 idA

/-- The in-flight connect fetch then resolves with a connect string. -/
def c5k2 := resumeConnect c5k1 idA (startLocals idSelf) (some connX)

/-- The post-launch sleep elapses (still no cancellation check). -/
def c5k3 := resumeSleepLaunch c5k2.1 idA (startLocals idSelf)

/-- The own-server fetch resolves; a second fetch is issued. -/
def c5k4 := resumeUserServer c5k3.1 idA (startLocals idSelf) (some srv900)

/-- Registry with a cancelled entry for the C5 witness. -/
def c5regW : Reg := [(idA, { startEntry with cancelled := true })]

/-- A friend status reporting the friend joinable again (`can_join` true), as
`getFriendsStatuses` produces it. -/
def fsJoinable : FriendStatus :=
  { steamid := idA, personaname := "Bob".toList, status := "Playing Casual".toList,
    can_join := true, join_available := true, game_map := "de_dust2".toList,
    game_score := "1:2".toList, game_server_steam_id := some srv900,
    connect := connX, avatar := [] }

/-- Registry of a loop currently in the Missing state. -/
def c6reg : Reg := [(idA, { startEntry with status := stMissing })]

/-- Locals of that loop: `missingSince` was recorded at time 5000. -/
def c6locals : Locals :=
  { startLocals idSelf with
    missingSince := some 5000
    lastKnownPersona := some "Bob".toList
    lastKnownAvatar := some [] }

/-- Private data whose raw `game_server_steam_id` is the empty string and
whose presence blob decodes no server id. -/
def privEmptySrv : PrivateData :=
  { game_id := some "730".toList, rich_presence_kv := none
    game_server_steam_id := some [] }

/-- Account wrapping `privEmptySrv`. -/
def accEmptySrv : Account :=
  { private_data := some privEmptySrv, public_data := none }

/-- Registry of a loop currently in the Connecting state. -/
def c7reg : Reg := [(idA, { startEntry with status := stConnecting })]

/-- Registry with a single started friend for the C7 witness. -/
def c7regW : Reg := [(idA, startEntry)]

/-- The claim-side reading of `can_join` with the empty-string disjunct
dropped from the blocked game states. -/
def canJoinNoEmptyTest (rp : PresenceInfo) : Bool :=
  rp.game_mode == some "casual".toList &&
    !(rp.game_state == none || rp.game_state == some "lobby".toList)

/-
Helper lemmas about the registry and the decoder.
-/

@[simp] theorem lookup_set_self (reg : Reg) (f : Str) (e : Entry) :
    lookupReg (setReg reg f e) f = some e := by
  induction reg with
  | nil => simp [setReg, lookupReg]
  | cons p t ih =>
    obtain ⟨g, x⟩ := p
    by_cases h : g = f
    · simp [setReg, lookupReg, h]
    · simp [setReg, lookupReg, h, ih]

theorem lookup_set_ne (reg : Reg) {f g : Str} (e : Entry) (h : g ≠ f) :
    lookupReg (setReg reg f e) g = lookupReg reg g := by
  induction reg with
  | nil => simp [setReg, lookupReg, Ne.symm h]
  | cons p t ih =>
    obtain ⟨k, x⟩ := p
    by_cases hk : k = f
    · subst hk
      simp [setReg, lookupReg, Ne.symm h]
    · by_cases hkg : k = g <;> simp [setReg, lookupReg, hk, hkg, h, ih]

theorem mem_keys_set (reg : Reg) (f g : Str) (e : Entry) :
    g ∈ keysReg reg → g ∈ keysReg (setReg reg f e) := by
  induction reg with
  | nil => intro h; simp [keysReg] at h
  | cons p t ih =>
    intro h
    obtain ⟨k, x⟩ := p
    by_cases hkf : k = f
    · subst hkf
      have hset : setReg ((k, x) :: t) k e = (k, e) :: t := by
        simp [setReg]
      rw [hset]
      simp only [keysReg, List.map_cons, List.mem_cons] at h ⊢
      exact h
    · have hset : setReg ((k, x) :: t) f e = (k, x) :: setReg t f e := by
        simp [setReg, hkf]
      rw [hset]
      simp only [keysReg, List.map_cons, List.mem_cons] at h ⊢
      rcases h with hk | ht
      · exact Or.inl hk
      · exact Or.inr (ih ht)

theorem cancel_lookup_self (reg : Reg) (f : Str) :
    ∃ e, lookupReg (cancelJoin reg f) f = some e ∧
      e.status = stCancelled ∧ e.cancelled = true := by
  unfold cancelJoin
  exact ⟨_, lookup_set_self .., rfl, rfl⟩

theorem cancel_lookup_ne (reg : Reg) {f g : Str} (h : g ≠ f) :
    lookupReg (cancelJoin reg f) g = lookupReg reg g := by
  unfold cancelJoin
  exact lookup_set_ne reg _ h

theorem foldl_cancel_not_mem (L : List Str) {f : Str} :
    ∀ reg : Reg, f ∉ L →
      lookupReg (L.foldl (fun a g => cancelJoin a g) reg) f = lookupReg reg f := by
  induction L with
  | nil => intro reg _; rfl
  | cons x t ih =>
    intro reg h
    have hx : f ≠ x := fun hh => h (hh ▸ List.mem_cons_self x t)
    have ht : f ∉ t := fun hh => h (List.mem_cons_of_mem x hh)
    calc lookupReg ((x :: t).foldl (fun a g => cancelJoin a g) reg) f
        = lookupReg (t.foldl (fun a g => cancelJoin a g) (cancelJoin reg x)) f := rfl
      _ = lookupReg (cancelJoin reg x) f := ih (cancelJoin reg x) ht
      _ = lookupReg reg f := cancel_lookup_ne reg hx

theorem foldl_cancel_mem (L : List Str) {g : Str} :
    ∀ reg : Reg, g ∈ L →
      ∃ e, lookupReg (L.foldl (fun a k => cancelJoin a k) reg) g = some e ∧
        e.status = stCancelled ∧ e.cancelled = true := by
  induction L with
  | nil => intro reg h; cases h
  | cons x t ih =>
    intro reg h
    by_cases hg : g ∈ t
    · exact ih (cancelJoin reg x) hg
    · have hx : g = x := by
        rcases List.mem_cons.mp h with hk | hk
        · exact hk
        · exact absurd hk hg
      subst hx
      obtain ⟨e, he, hs, hc⟩ := cancel_lookup_self reg g
      refine ⟨e, ?_, hs, hc⟩
      have hstep : (g :: t).foldl (fun a k => cancelJoin a k) reg =
          t.foldl (fun a k => cancelJoin a k) (cancelJoin reg g) := rfl
      rw [hstep, foldl_cancel_not_mem t (cancelJoin reg g) hg, he]

theorem startsWithL_iff (p s : Str) :
    startsWithL p s = true ↔ ∃ t, s = p ++ t := by
  induction p generalizing s with
  | nil => simp [startsWithL]
  | cons a ps ih =>
    cases s with
    | nil => simp [startsWithL]
    | cons c cs =>
      simp only [startsWithL, Bool.and_eq_true, decide_eq_true_eq, ih,
        List.cons_append, List.cons_eq_cons]
      constructor
      · rintro ⟨hac, t, ht⟩
        exact ⟨t, hac.symm, ht⟩
      · rintro ⟨t, hca, ht⟩
        exact ⟨hca.symm, t, ht⟩

theorem stripL_some {p s r : Str} (h : stripL p s = some r) :
    startsWithL p s = true := by
  induction p generalizing s with
  | nil => rfl
  | cons a ps ih =>
    cases s with
    | nil => simp [stripL] at h
    | cons c cs =>
      by_cases hac : a = c
      · simp only [stripL, if_pos hac] at h
        simp [startsWithL, hac, ih h]
      · simp [stripL, hac] at h

theorem readQuotedValue_some {r2 v : Str} (h : readQuotedValue r2 = some v) :
    v ≠ [] := by
  cases r2 with
  | nil => cases h
  | cons q r3 =>
    by_cases hq : q = '"'
    · simp only [readQuotedValue, if_pos hq] at h
      by_cases hv : (r3.takeWhile (fun c => !(c = '"'))).isEmpty
      · rw [if_pos hv] at h; cases h
      · rw [if_neg hv] at h
        cases hr4 : r3.dropWhile (fun c => !(c = '"')) with
        | nil => rw [hr4] at h; cases h
        | cons q2 r5 =>
          rw [hr4] at h
          simp only [] at h
          by_cases hq2 : q2 = '"'
          · rw [if_pos hq2] at h
            cases h
            intro hnil
            rw [hnil] at hv
            exact hv rfl
          · rw [if_neg hq2] at h; cases h
    · simp only [readQuotedValue, if_neg hq] at h
      cases h

theorem matchKeyAt_some {key s v : Str} (h : matchKeyAt key s = some v) :
    startsWithL (quoted key) s = true ∧ v ≠ [] := by
  unfold matchKeyAt at h
  cases hs : stripL (quoted key) s with
  | none => rw [hs] at h; cases h
  | some rest =>
    rw [hs] at h
    simp only [] at h
    refine ⟨stripL_some hs, ?_⟩
    by_cases hws : (rest.takeWhile isWs).isEmpty
    · rw [if_pos hws] at h; cases h
    · rw [if_neg hws] at h
      exact readQuotedValue_some h

theorem extract_some {key v : Str} :
    ∀ blob : Str, extract key blob = some v →
      hasQuotedKey key blob = true ∧ v ≠ [] := by
  intro blob
  induction blob with
  | nil => intro h; cases h
  | cons c rest ih =>
    intro h
    unfold extract at h
    cases hm : matchKeyAt key (c :: rest) with
    | some w =>
      rw [hm] at h
      cases h
      obtain ⟨h1, h2⟩ := matchKeyAt_some hm
      exact ⟨by simp [hasQuotedKey, h1], h2⟩
    | none =>
      rw [hm] at h
      obtain ⟨h1, h2⟩ := ih h
      exact ⟨by simp [hasQuotedKey, h1], h2⟩

/-- Resuming the joined grace sleep on a registry that still has an entry for
the loop's friend id finishes the loop normally and leaves the entry
cancelled. -/
theorem resumeSleepJoined_spec (reg : Reg) (f : Str) (l : Locals) (e : Entry)
    (he : lookupReg reg f = some e) :
    (resumeSleepJoined reg f l).2.1 = TaskState.done l ∧
    (lookupReg (resumeSleepJoined reg f l).1 f).map
      (fun x => (x.status, x.cancelled)) = some (stCancelled, true) := by
  unfold resumeSleepJoined
  have hcj : cancelJoin reg f =
      setReg reg f { e with status := stCancelled, cancelled := true } := by
    unfold cancelJoin
    rw [he]
    rfl
  rw [hcj]
  unfold epilogue
  simp only [lookup_set_self]
  rw [if_neg (by decide : ¬ stCancelled = stJoined)]
  exact ⟨rfl, by simp only [lookup_set_self]; rfl⟩

/-
Claim checks.
-/

/-- C1, counterexample: after `startJoin` is called a second time for a
friend whose loop is still active (suspended on its first connect fetch),
the prior loop is NOT cancelled — the overwritten entry's `cancelled` flag
is `false`, the prior loop proceeds to issue a Launch Adapter invocation,
and the new loop then issues a second one for the same id while the prior
loop is still suspended (non-terminal).  This refutes the claim that the
prior loop exits before the new one proceeds and that no two loops for the
same id issue overlapping launch invocations. -/
theorem c1_counterexample :
    (startJoin [] idA idSelf).2.1 = TaskState.susp Kont.fetchConnect (startLocals idSelf) ∧
    (lookupReg c1reg2 idA).map Entry.cancelled = some false ∧
    c1r1.2.2 = [Event.launch idA connX] ∧
    c1r1.2.1 = TaskState.susp Kont.sleepAfterLaunch (startLocals idSelf) ∧
    c1r2.2.2 = [Event.launch idA connX] ∧
    c1r2.2.1 = TaskState.susp Kont.sleepAfterLaunch (startLocals idSelf) := by decide

/-- C1 (amended): `startJoin` for an id with an active loop does not cancel
the prior loop; it only overwrites the registry entry with a fresh waiting
entry whose `cancelled` flag is `false`, so a previously running loop for
the same id that reaches its next cancellation check proceeds to fetch
rather than exit (and both loops stay active). -/
theorem c1_amended (reg : Reg) (f s : Str) (l : Locals) :
    lookupReg (startJoin reg f s).1 f = some startEntry ∧
    (startJoin reg f s).2.1 = TaskState.susp Kont.fetchConnect (startLocals s) ∧
    (runTop (startJoin reg f s).1 f l).2.2 = [Event.fetchConnectInfo f] ∧
    (runTop (startJoin reg f s).1 f l).2.1 = TaskState.susp Kont.fetchConnect l := by
  simp [startJoin, runTop, startLocals, startEntry]

/-- C2: when a loop's server-id comparison succeeds (both ids truthy and
equal) the loop transitions to Joined and, synchronously in the same step
(hence well within one poll interval), every other id present in the
registry — in particular every non-terminal one — gets status `"cancelled"`
with its `cancelled` flag set. -/
theorem c2_confirmed (reg : Reg) (f : Str) (l : Locals) (u v : Option Str) (e : Entry)
    (he : lookupReg reg f = some e) (hu : jsTruthyS u = true)
    (hv : jsTruthyS v = true) (huv : u = v) :
    (resumeFriendServer reg f l u v).2.1 = TaskState.susp Kont.sleepJoined l ∧
    (lookupReg (resumeFriendServer reg f l u v).1 f).map Entry.status = some stJoined ∧
    ∀ g, g ∈ keysReg reg → g ≠ f →
      ∃ e', lookupReg (resumeFriendServer reg f l u v).1 g = some e' ∧
        e'.status = stCancelled ∧ e'.cancelled = true := by
  have hcond : (jsTruthyS u && jsTruthyS v && u == v) = true := by
    subst huv; simp [hu, hv]
  have hred : resumeFriendServer reg f l u v =
      (((keysReg (setReg reg f { e with status := stJoined })).filter
          (fun g => !(g = f))).foldl (fun a g => cancelJoin a g)
          (setReg reg f { e with status := stJoined }),
        TaskState.susp Kont.sleepJoined l, []) := by
    unfold resumeFriendServer
    rw [if_pos hcond]
    unfold setStatus
    rw [he]
  rw [hred]
  have hnot : f ∉ (keysReg (setReg reg f { e with status := stJoined })).filter
      (fun g => !(g = f)) := by
    intro hmem
    rcases List.mem_filter.mp hmem with ⟨_, hp⟩
    simp at hp
  refine ⟨rfl, ?_, ?_⟩
  · rw [foldl_cancel_not_mem _ _ hnot, lookup_set_self]
    rfl
  · intro g hg hgf
    have hg1 : g ∈ keysReg (setReg reg f { e with status := stJoined }) :=
      mem_keys_set reg f g _ hg
    have hg2 : g ∈ (keysReg (setReg reg f { e with status := stJoined })).filter
        (fun k => !(k = f)) :=
      List.mem_filter.mpr ⟨hg1, by simp [hgf]⟩
    exact foldl_cancel_mem _ _ hg2

/-- C2, witness: with friends A and B both registered, A's successful
server comparison leaves B's entry cancelled. -/
theorem c2_witness :
    ∃ e', lookupReg (resumeFriendServer c2regW idA (startLocals idSelf)
        (some srv900) (some srv900)).1 idB = some e' ∧
      e'.status = stCancelled ∧ e'.cancelled = true :=
  (c2_confirmed c2regW idA (startLocals idSelf) (some srv900) (some srv900)
    startEntry (by decide) (by decide) (by decide) rfl).2.2 idB (by decide) (by decide)

/-- C3, counterexample: with the loop suspended on its statuses fetch, a
transient fetch error there terminates the loop (the error is re-thrown by
`getFriendsStatuses` and caught nowhere in `joinLoop`), and the loop's
entry is left in the `"waiting"` state, not Cancelled — refuting both that
transient errors are caught with polling continuing and that termination
happens only for credential errors and then into Cancelled. -/
theorem c3_counterexample :
    (resumeConnect (startJoin [] idA idSelf).1 idA (startLocals idSelf) none).2.1 =
      TaskState.susp Kont.fetchStatuses (startLocals idSelf) ∧
    (resumeStatuses (startJoin [] idA idSelf).1 idA (startLocals idSelf) 1000
        (Except.error ())).2.1 = TaskState.crashed (startLocals idSelf) ∧
    (lookupReg (resumeStatuses (startJoin [] idA idSelf).1 idA (startLocals idSelf)
        1000 (Except.error ())).1 idA).map Entry.status = some stWaiting := by decide

/-- C3 (amended): errors in the connect-info and server-id fetches are
caught inside those fetchers and returned as `null` (the tick is treated
as no data and the loop keeps polling), but an error raised by the
statuses fetch propagates out of the loop uncaught and terminates it
without touching the registry (so not into Cancelled); there is no
credential-specific handling anywhere in the loop. -/
theorem c3_amended (reg : Reg) (f : Str) (l : Locals) (now : Nat) (am sm : AvatarMap) :
    getFriendConnectInfo FetchOutcome.err = none ∧
    getFriendConnectInfo FetchOutcome.notOk = none ∧
    getUserGameServerSteamId FetchOutcome.err = none ∧
    getUserGameServerSteamId FetchOutcome.notOk = none ∧
    resumeConnect reg f l none =
      (reg, TaskState.susp Kont.fetchStatuses l, [Event.fetchStatusesCall f]) ∧
    getFriendsStatuses FetchOutcome.err am sm = Except.error () ∧
    resumeStatuses reg f l now (Except.error ()) = (reg, TaskState.crashed l, []) :=
  ⟨rfl, rfl, rfl, rfl, rfl, rfl, rfl⟩

/-- C4: evaluation of the code at the failing inputs.  `resetAll` empties
the registry without setting any cancelled flag; a loop suspended in its
Joined grace sleep before the reset re-creates a registry entry afterwards
(`cancelJoin` spreads the missing entry back into existence); and after
`resetAll()` immediately followed by `startJoin(id)`, the pre-reset loop
for `id` resumes, reads the fresh entry's `cancelled = false`, and keeps
polling alongside the new loop — two active loops and resurrected state,
contradicting the claim. -/
theorem c4_code_eval :
    c4t4.2.1 = TaskState.susp Kont.sleepJoined (startLocals idSelf) ∧
    resetAll c4t4.1 = [] ∧
    (resumeSleepJoined (resetAll c4t4.1) idA (startLocals idSelf)).1 =
      [(idA, { status := stCancelled, cancelled := true, interval := false,
               personaname := none, avatar := none })] ∧
    c4t4b.2.1 = TaskState.susp Kont.sleepRetry (startLocals idSelf) ∧
    (lookupReg (startJoin (resetAll c4t4b.1) idA idSelf).1 idA).map Entry.cancelled =
      some false ∧
    (resumeSleepRetry (startJoin (resetAll c4t4b.1) idA idSelf).1 idA
        (startLocals idSelf)).2.2 = [Event.fetchConnectInfo idA] ∧
    (resumeSleepRetry (startJoin (resetAll c4t4b.1) idA idSelf).1 idA
        (startLocals idSelf)).2.1 = TaskState.susp Kont.fetchConnect (startLocals idSelf) := by
  decide

/-- C5, counterexample: the cancelled flag is checked only at the top of
the loop, not before and after every sleep.  With `cancelJoin` called while
the first connect fetch is in flight, the loop still issues a Launch
Adapter invocation, then — after the post-launch sleep, with no check —
one server-id fetch, and then a second one: more than one poll interval
plus one in-flight request after the cancellation. -/
theorem c5_counterexample :
    (lookupReg c5k1 idA).map Entry.cancelled = some true ∧
    c5k2.2.2 = [Event.launch idA connX] ∧
    c5k3.2.2 = [Event.fetchServerId idSelf] ∧
    c5k4.2.2 = [Event.fetchServerId idA] := by decide

/-- C5 (amended): the loop checks its cancelled flag once per iteration, at
the top of the loop: a cancelled loop resuming from either end-of-iteration
sleep exits immediately with no further fetch or launch calls, so
cancellation takes effect within one full iteration (the current iteration
may still issue up to one launch and two server-id fetches). -/
theorem c5_amended (reg : Reg) (f : Str) (l : Locals) (e : Entry)
    (he : lookupReg reg f = some e) (hc : e.cancelled = true) :
    (runTop reg f l).2.2 = [] ∧ (runTop reg f l).2.1 = TaskState.done l ∧
    (resumeSleepRetry reg f l).2.2 = [] ∧ (resumeSleepPoll reg f l).2.2 = [] := by
  have key : (runTop reg f l).2.2 = [] ∧ (runTop reg f l).2.1 = TaskState.done l := by
    unfold runTop epilogue
    rw [he]
    simp only [hc, if_true]
    by_cases hj : e.status = stJoined <;> simp [hj]
  exact ⟨key.1, key.2, key.1, key.1⟩

/-- C5, witness: a concrete cancelled entry makes the loop exit at the top
with no events. -/
theorem c5_witness :
    (runTop c5regW idA (startLocals idSelf)).2.2 = [] ∧
    (runTop c5regW idA (startLocals idSelf)).2.1 = TaskState.done (startLocals idSelf) ∧
    (resumeSleepRetry c5regW idA (startLocals idSelf)).2.2 = [] ∧
    (resumeSleepPoll c5regW idA (startLocals idSelf)).2.2 = [] :=
  c5_amended c5regW idA (startLocals idSelf) { startEntry with cancelled := true }
    (by decide) (by decide)

/-- C6: evaluation of the code at the failing input.  The friend is
joinable again (`can_join = true` in the fetched status) while the loop is
in the Missing state well before the 60 s timeout, yet the loop does not
clear `missingSince` and does not return to Waiting: it reads
`friendStatus.in_casual_mode`, a key the statuses fetcher never produces,
so the back-in-casual branch is unreachable and the loop keeps the missing
status and the old timer. -/
theorem c6_code_eval :
    fsJoinable.can_join = true ∧
    in_casual_mode fsJoinable = false ∧
    (resumeStatuses c6reg idA c6locals 10000 (Except.ok [fsJoinable])).2.1 =
      TaskState.susp Kont.sleepPoll c6locals ∧
    c6locals.missingSince = some 5000 ∧
    (lookupReg (resumeStatuses c6reg idA c6locals 10000
        (Except.ok [fsJoinable])).1 idA).map Entry.status = some stMissing := by decide

/-- C7, counterexample: `getUserGameServerSteamId` can return the empty
string (raw `game_server_steam_id` of the private data, passed through by
JS `||`), and with both fetched server ids equal to `""` — non-null and
equal — the loop does NOT transition to Joined: the truthiness test fails
and it goes back to sleep with the entry still Connecting. -/
theorem c7_counterexample :
    getUserGameServerSteamId (FetchOutcome.ok [accEmptySrv]) = some [] ∧
    (resumeFriendServer c7reg idA (startLocals idSelf) (some []) (some [])).2.1 =
      TaskState.susp Kont.sleepRetry (startLocals idSelf) ∧
    (lookupReg (resumeFriendServer c7reg idA (startLocals idSelf) (some [])
        (some [])).1 idA).map Entry.status = some stConnecting := by decide

/-- C7 (amended): after a Connecting launch attempt, if both fetched server
ids are truthy (non-null and non-empty) and equal, the loop transitions to
Joined, holds it for the 1500 ms grace sleep, then finalizes into the
terminal Cancelled state; otherwise (either id null or empty, or unequal)
the loop sleeps and the next iteration re-fetches connect info fresh. -/
theorem c7_amended (reg : Reg) (f : Str) (l : Locals) (u v : Option Str) (e : Entry)
    (he : lookupReg reg f = some e) :
    ((jsTruthyS u && jsTruthyS v && u == v) = true →
      (resumeFriendServer reg f l u v).2.1 = TaskState.susp Kont.sleepJoined l ∧
      (lookupReg (resumeFriendServer reg f l u v).1 f).map Entry.status = some stJoined ∧
      sleepDur Kont.sleepJoined l = some 1500 ∧
      (resumeSleepJoined (resumeFriendServer reg f l u v).1 f l).2.1 =
        TaskState.done l ∧
      (lookupReg (resumeSleepJoined (resumeFriendServer reg f l u v).1 f l).1 f).map
        (fun x => (x.status, x.cancelled)) = some (stCancelled, true)) ∧
    ((jsTruthyS u && jsTruthyS v && u == v) = false →
      resumeFriendServer reg f l u v = (reg, TaskState.susp Kont.sleepRetry l, []) ∧
      (e.cancelled = false →
        (resumeSleepRetry reg f l).2.2 = [Event.fetchConnectInfo f] ∧
        (resumeSleepRetry reg f l).2.1 = TaskState.susp Kont.fetchConnect l)) := by
  constructor
  · intro hcond
    have hred : resumeFriendServer reg f l u v =
        (((keysReg (setReg reg f { e with status := stJoined })).filter
            (fun g => !(g = f))).foldl (fun a g => cancelJoin a g)
            (setReg reg f { e with status := stJoined }),
          TaskState.susp Kont.sleepJoined l, []) := by
      unfold resumeFriendServer
      rw [if_pos hcond]
      unfold setStatus
      rw [he]
    rw [hred]
    have hnot : f ∉ (keysReg (setReg reg f { e with status := stJoined })).filter
        (fun g => !(g = f)) := by
      intro hmem
      rcases List.mem_filter.mp hmem with ⟨_, hp⟩
      simp at hp
    have hlook : lookupReg
        (((keysReg (setReg reg f { e with status := stJoined })).filter
            (fun g => !(g = f))).foldl (fun a g => cancelJoin a g)
            (setReg reg f { e with status := stJoined })) f =
        some { e with status := stJoined } := by
      rw [foldl_cancel_not_mem _ _ hnot, lookup_set_self]
    obtain ⟨hj1, hj2⟩ := resumeSleepJoined_spec _ f l _ hlook
    exact ⟨rfl, by rw [hlook]; rfl, rfl, hj1, hj2⟩
  · intro hcond
    have hred : resumeFriendServer reg f l u v =
        (reg, TaskState.susp Kont.sleepRetry l, []) := by
      unfold resumeFriendServer
      rw [if_neg (by simp [hcond])]
    refine ⟨hred, ?_⟩
    intro hcf
    unfold resumeSleepRetry runTop
    rw [he]
    simp [hcf]

/-- C7, witness: a concrete matching pair of truthy server ids drives the
Joined transition, the grace sleep, and the terminal finalization. -/
theorem c7_witness :
    (resumeFriendServer c7regW idA (startLocals idSelf) (some srv900)
      (some srv900)).2.1 = TaskState.susp Kont.sleepJoined (startLocals idSelf) ∧
    (lookupReg (resumeFriendServer c7regW idA (startLocals idSelf) (some srv900)
      (some srv900)).1 idA).map Entry.status = some stJoined ∧
    sleepDur Kont.sleepJoined (startLocals idSelf) = some 1500 ∧
    (resumeSleepJoined (resumeFriendServer c7regW idA (startLocals idSelf)
      (some srv900) (some srv900)).1 idA (startLocals idSelf)).2.1 =
      TaskState.done (startLocals idSelf) ∧
    (lookupReg (resumeSleepJoined (resumeFriendServer c7regW idA
      (startLocals idSelf) (some srv900) (some srv900)).1 idA
      (startLocals idSelf)).1 idA).map
      (fun x => (x.status, x.cancelled)) = some (stCancelled, true) :=
  (c7_amended c7regW idA (startLocals idSelf) (some srv900) (some srv900)
    startEntry (by decide)).1 (by decide)

/-- C8: for every decoded presence, `can_join` is true exactly when the
game mode is `"casual"` and the game state is neither null, the empty
string, nor `"lobby"`; and `join_available` is true exactly when
`can_join` holds and the connect value starts with the `"+gcconnect"`
prefix. -/
theorem c8_confirmed (rp : PresenceInfo) :
    (can_join rp = true ↔
      rp.game_mode = some "casual".toList ∧ rp.game_state ≠ none ∧
      rp.game_state ≠ some [] ∧ rp.game_state ≠ some "lobby".toList) ∧
    (join_available rp = true ↔
      can_join rp = true ∧
      ∃ rest, (rp.connect).getD [] = "+gcconnect".toList ++ rest) := by
  constructor
  · unfold can_join gameStateBlocked
    simp only [Bool.and_eq_true, Bool.not_eq_true', Bool.or_eq_false_iff,
      beq_iff_eq, beq_eq_false_iff_ne]
    tauto
  · unfold join_available
    simp only [Bool.and_eq_true, startsWithL_iff]

/-- C8, witness: the specification's example presence blob decodes to a
joinable, join-available status. -/
theorem c8_witness :
    can_join (parseRichPresence exampleBlob) = true ∧
    join_available (parseRichPresence exampleBlob) = true :=
  ⟨((c8_confirmed (parseRichPresence exampleBlob)).1).mpr (by decide),
    ((c8_confirmed (parseRichPresence exampleBlob)).2).mpr
      ⟨by decide, "/G123".toList, by decide⟩⟩

/-- C9: the presence decoder is a total function (so it never throws), and
for every blob and every key whose quoted form does not occur in the blob,
the decoded field is null; in particular for the individual fields of
`parseRichPresence`.  Determinism is intrinsic: the decoder is a pure
function of the blob. -/
theorem c9_confirmed (blob : Str) :
    (∀ key : Str, hasQuotedKey key blob = false → extract key blob = none) ∧
    (hasQuotedKey "status".toList blob = false →
      (parseRichPresence blob).status = none) ∧
    (hasQuotedKey "game:state".toList blob = false →
      (parseRichPresence blob).game_state = none) ∧
    (hasQuotedKey "game:mode".toList blob = false →
      (parseRichPresence blob).game_mode = none) ∧
    (hasQuotedKey "game:map".toList blob = false →
      (parseRichPresence blob).game_map = none) ∧
    (hasQuotedKey "game:score".toList blob = false →
      (parseRichPresence blob).game_score = none) ∧
    (hasQuotedKey "connect".toList blob = false →
      (parseRichPresence blob).connect = none) ∧
    (hasQuotedKey "game_server_steam_id".toList blob = false →
      (parseRichPresence blob).game_server_steam_id = none) := by
  have hgen : ∀ key : Str, hasQuotedKey key blob = false →
      extract key blob = none := by
    intro key hk
    cases hx : extract key blob with
    | none => rfl
    | some v =>
      have := (extract_some blob hx).1
      rw [this] at hk
      cases hk
  exact ⟨hgen, hgen _, hgen _, hgen _, hgen _, hgen _, hgen _, hgen _⟩

/-- C9, witness: a blob without the `status` key decodes its status field
to null. -/
theorem c9_witness : (parseRichPresence "no keys here".toList).status = none :=
  (c9_confirmed "no keys here".toList).2.1 (by decide)

/-- C10: a key paired with an empty-string value is invisible to the
decoder — the captured value of a match is never empty, so no field ever
decodes to the empty string; consequently the decoded game state is never
`""`, the empty-string disjunct of the `can_join` test can never be the
deciding case (dropping it never changes `can_join` on decoded
presences), and a concrete blob carrying `"connect" ""` decodes exactly
like the same blob with the pair absent. -/
theorem c10_confirmed :
    (∀ key blob : Str, extract key blob ≠ some []) ∧
    (∀ blob : Str, (parseRichPresence blob).game_state ≠ some []) ∧
    (∀ blob : Str, can_join (parseRichPresence blob) =
      canJoinNoEmptyTest (parseRichPresence blob)) ∧
    parseRichPresence ("\"status\" \"x\" \"connect\" \"\"").toList =
      parseRichPresence ("\"status\" \"x\"").toList := by
  have hne : ∀ key blob : Str, extract key blob ≠ some [] := by
    intro key blob h
    exact (extract_some blob h).2 rfl
  refine ⟨hne, fun blob => hne _ blob, ?_, by decide⟩
  intro blob
  have hgs : (parseRichPresence blob).game_state ≠ some [] := hne _ blob
  unfold can_join canJoinNoEmptyTest gameStateBlocked
  have hf : ((parseRichPresence blob).game_state == some []) = false := by
    simpa [beq_eq_false_iff_ne] using hgs
  rw [hf]
  simp

/-- C10, witness: the decoder never yields an empty value for the concrete
present-but-empty blob. -/
theorem c10_witness :
    extract "connect".toList ("\"connect\" \"\"").toList ≠ some [] :=
  c10_confirmed.1 "connect".toList ("\"connect\" \"\"").toList

end Enjoyer
